import Mathlib

/-!
Verification of the pipecat observer fan-out and task-lifecycle subsystem
(`src/pipecat/pipeline/task_observer.py` and `src/pipecat/utils/utils.py`).

The Python code runs under asyncio's single-threaded cooperative scheduler.
We embed it shallowly:

* The module-level task set `_TASKS` becomes an explicit duplicate-free
  `List Nat` of task ids threaded through each operation.
* `wait_for_task` / `cancel_task` suspend on the awaited task; the result of
  that suspension (normal completion, `asyncio.TimeoutError`,
  `asyncio.CancelledError`, or some other exception re-raised out of the
  task) is an explicit `AwaitOutcome` parameter chosen by the environment.
  Each function returns the updated registry, the log entries it emitted,
  which await branch it took (the `if timeout:` test), and the exception it
  propagated to its caller (if any).
* The fan-out (`TaskObserver`) becomes a state machine: a `SysState` holds
  the registry and the per-observer proxies; external `on_push_frame` calls
  and scheduler turns for individual proxy tasks are `SysAction`s.
-/

namespace Pipecat

/-- Model of `FrameDirection` from `frame_processor.py` (closed set of direction tags). -/
inductive FrameDirection
  | downstream
  | upstream
deriving DecidableEq, Repr

/-- Model of `ObserverData` (task_observer.py): the record built by `on_push_frame` and
put into every proxy queue.  Frame processors and frames are identified by
abstract ids, as only identity matters to this subsystem. -/
structure ObserverData where
  src : Nat
  dst : Nat
  frame : Nat
  direction : FrameDirection
  timestamp : Int
deriving DecidableEq, Repr

/-- The Python exceptions this subsystem can see.  `cancelledError` models
`asyncio.CancelledError`, which in Python ≥ 3.8 derives from `BaseException`
and is therefore NOT caught by `except Exception`. -/
inductive PyExn
  | timeoutError
  | cancelledError
  | keyError
  | otherExn (msg : String)
deriving DecidableEq, Repr

/-- Whether `except Exception` catches this exception. -/
def PyExn.isException : PyExn → Bool
  | .cancelledError => false
  | _ => true

/-- A loguru log entry, by severity. -/
inductive LogMsg
  | trace (s : String)
  | warning (s : String)
  | error (s : String)
  | exception (s : String)
deriving DecidableEq, Repr

/-- Model of `_TASKS.add(task)`: Python set insertion (idempotent). -/
def setAdd (reg : List Nat) (t : Nat) : List Nat :=
  if t ∈ reg then reg else reg ++ [t]

/-- Model of `_TASKS.remove(task)`: Python `set.remove`, which deletes the element or
raises `KeyError` when it is absent. -/
def setRemove (reg : List Nat) (t : Nat) : List Nat × Option PyExn :=
  if t ∈ reg then (reg.filter (fun x => x ≠ t), none) else (reg, some PyExn.keyError)

/-- The shared `finally:` block of `wait_for_task` and `cancel_task`:
`try: _TASKS.remove(task) except KeyError as e: logger.error(...)`.
Returns the new registry, emitted log entries, and any exception that
escapes the block (only a non-`KeyError` could, and `set.remove` raises
nothing else). -/
def removeFromRegistry (reg : List Nat) (t : Nat) (name : String) :
    List Nat × List LogMsg × Option PyExn :=
  match setRemove reg t with
  | (reg2, none) => (reg2, [], none)
  | (reg2, some PyExn.keyError) =>
      (reg2, [LogMsg.error (name ++ ": error removing task (already removed?)")], none)
  | (reg2, some e) => (reg2, [], some e)

/-- What awaiting the task produced: it completed, the `asyncio.wait_for`
timeout elapsed (`TimeoutError`), the awaiter saw `CancelledError`, or the
task re-raised some other exception into the awaiter. -/
inductive AwaitOutcome
  | completed
  | timedOut
  | cancelled
  | failed (msg : String)
deriving DecidableEq, Repr

/-- The exception the `await` expression raises for a given outcome. -/
def awaitExn : AwaitOutcome → Option PyExn
  | .completed => none
  | .timedOut => some PyExn.timeoutError
  | .cancelled => some PyExn.cancelledError
  | .failed m => some (PyExn.otherExn m)

/-- Which await the `if timeout:` test selected: `asyncio.wait_for(task,
timeout)` with a time bound, or a plain `await task` with no bound at all. -/
inductive AwaitMode
  | bounded (t : ℚ)
  | unbounded
deriving DecidableEq, Repr

/-- Python truthiness of the `Optional[float]` timeout argument: `None`, `0`
and `0.0` are falsy. -/
def truthy : Option ℚ → Bool
  | none => false
  | some x => decide (x ≠ 0)

/-- The branch taken by `if timeout: await asyncio.wait_for(task, timeout)
else: await task`. -/
def awaitMode (timeout : Option ℚ) : AwaitMode :=
  if truthy timeout then AwaitMode.bounded (timeout.getD 0) else AwaitMode.unbounded

/-- Observable result of one `wait_for_task` / `cancel_task` call. -/
structure CallResult where
  mode : AwaitMode
  registry : List Nat
  log : List LogMsg
  raised : Option PyExn
deriving DecidableEq, Repr

/-- Model of `wait_for_task(task, timeout)` (utils.py).  `reg` is the current `_TASKS`
registry, `t` the task's id, `name` its label, `outcome` what the awaited
task did.  Mirrors the `try` / `except TimeoutError` / `except
CancelledError` / `except Exception` / `finally` structure of the source. -/
def wait_for_task (reg : List Nat) (t : Nat) (name : String)
    (timeout : Option ℚ) (outcome : AwaitOutcome) : CallResult :=
  let bodyExn : Option PyExn := awaitExn outcome
  let stepExcept : Option PyExn × List LogMsg :=
    match bodyExn with
    | none => (none, [])
    | some PyExn.timeoutError =>
        (none, [LogMsg.warning (name ++ ": timed out waiting for task to finish")])
    | some PyExn.cancelledError =>
        (none, [LogMsg.error (name ++ ": unexpected task cancellation")])
    | some e =>
        if e.isException then
          (none, [LogMsg.exception (name ++ ": unexpected exception while stopping task")])
        else (some e, [])
  let fin := removeFromRegistry reg t name
  { mode := awaitMode timeout
    registry := fin.1
    log := stepExcept.2 ++ fin.2.1
    raised := match fin.2.2 with
      | some e => some e
      | none => stepExcept.1 }

/-- Model of `cancel_task(task, timeout)` (utils.py).  `task.cancel()` is a signal to
the task itself; its effect on a proxy task is modelled at the system level
(`stopFrom`).  Differs from `wait_for_task` only in its log messages and in
passing `CancelledError` silently (the expected success path). -/
def cancel_task (reg : List Nat) (t : Nat) (name : String)
    (timeout : Option ℚ) (outcome : AwaitOutcome) : CallResult :=
  let bodyExn : Option PyExn := awaitExn outcome
  let stepExcept : Option PyExn × List LogMsg :=
    match bodyExn with
    | none => (none, [])
    | some PyExn.timeoutError =>
        (none, [LogMsg.warning (name ++ ": timed out waiting for task to cancel")])
    | some PyExn.cancelledError => (none, [])
    | some e =>
        if e.isException then
          (none, [LogMsg.exception (name ++ ": unexpected exception while cancelling task")])
        else (some e, [])
  let fin := removeFromRegistry reg t name
  { mode := awaitMode timeout
    registry := fin.1
    log := stepExcept.2 ++ fin.2.1
    raised := match fin.2.2 with
      | some e => some e
      | none => stepExcept.1 }

/-- The `run_coroutine` wrapper installed by `create_task` (utils.py): given
the exception the wrapped coroutine raised (if any), what escapes to the
scheduler and what gets logged.  `CancelledError` is re-raised so the task
is properly marked cancelled; every `Exception` is logged and absorbed. -/
def run_coroutine (name : String) (bodyExn : Option PyExn) : Option PyExn × List LogMsg :=
  match bodyExn with
  | none => (none, [])
  | some PyExn.cancelledError => (some PyExn.cancelledError, [LogMsg.trace (name ++ ": task cancelled")])
  | some e =>
      if e.isException then (none, [LogMsg.exception (name ++ ": unexpected exception")])
      else (some e, [])

/-- Model of `create_task` (utils.py): schedule the wrapped coroutine, register the
handle in `_TASKS`, log, return immediately. -/
def create_task (reg : List Nat) (tid : Nat) (name : String) : List Nat × List LogMsg :=
  (setAdd reg tid, [LogMsg.trace (name ++ ": task created")])

/-- State of one proxy's dedicated drain task. -/
inductive ProxyStatus
  | running
  | terminated
  | cancelled
deriving DecidableEq, Repr

/-- A `Proxy` (task_observer.py) together with the observable state of its
task: `queue` is its FIFO `asyncio.Queue` (`put` appends, `get` takes the
head), `task` the id of its drain task, `invoked` the sequence of
`ObserverData` its observer's `on_push_frame` has been called with, in
order. -/
structure ProxyState where
  queue : List ObserverData
  task : Nat
  status : ProxyStatus
  invoked : List ObserverData
deriving DecidableEq, Repr

/-- Global state: the `_TASKS` registry, the `TaskObserver`'s proxies (frozen
order, fixed at construction), and the log. -/
structure SysState where
  registry : List Nat
  proxies : List ProxyState
  log : List LogMsg
deriving DecidableEq, Repr

/-- The label given to proxy `i`'s task. -/
def proxyName (i : Nat) : String := "TaskObserver::Observer" ++ toString i

/-- A freshly constructed proxy: empty queue, running task `tid`, no
invocations yet. -/
def freshProxy (tid : Nat) : ProxyState :=
  { queue := [], task := tid, status := ProxyStatus.running, invoked := [] }

/-- One iteration of `_create_proxies`'s loop: create the queue, spawn the
drain task via `create_task` (which registers the handle), append the proxy. -/
def createProxy (st : SysState) (tid : Nat) : SysState :=
  let c := create_task st.registry tid (proxyName tid)
  { registry := c.1
    proxies := st.proxies ++ [freshProxy tid]
    log := st.log ++ c.2 }

/-- Model of `TaskObserver.__init__` with `n` observers: build one proxy per observer,
in order, spawning each drain task immediately.  Task ids are `0 … n-1`. -/
def TaskObserver.init (n : Nat) : SysState :=
  (List.range n).foldl createProxy { registry := [], proxies := [], log := [] }

/-- Model of `TaskObserver.on_push_frame` (task_observer.py): for every proxy, in
order, construct a fresh `ObserverData` from the arguments and `put` it at
the back of that proxy's queue.  Nothing else is touched: the producer never
awaits any observer's processing. -/
def on_push_frame (st : SysState) (src dst frame : Nat)
    (direction : FrameDirection) (timestamp : Int) : SysState :=
  { st with proxies := st.proxies.map (fun p =>
      { p with queue := p.queue ++
          [{ src := src, dst := dst, frame := frame,
             direction := direction, timestamp := timestamp }] }) }

/-- One iteration of `_proxy_task_handler` as wrapped by `run_coroutine`,
for behaviour `fails` of this proxy's observer: if the task is running and
the queue nonempty, `get` the head and invoke the observer on it; if the
observer raises, the wrapper absorbs the exception and the task terminates
for good.  With an empty queue the task stays suspended on `get`; a
terminated or cancelled task does nothing.  Returns the new proxy state,
the exception escaping the wrapper to the scheduler, and the wrapper's log. -/
def proxyIter (fails : ObserverData → Bool) (name : String) (p : ProxyState) :
    ProxyState × Option PyExn × List LogMsg :=
  match p.status, p.queue with
  | ProxyStatus.running, d :: rest =>
      let bodyExn : Option PyExn :=
        if fails d then some (PyExn.otherExn ("observer raised")) else none
      let esc := run_coroutine name bodyExn
      let p2 : ProxyState :=
        { p with
          queue := rest
          invoked := p.invoked ++ [d]
          status := if fails d then ProxyStatus.terminated else ProxyStatus.running }
      (p2, esc.1, esc.2)
  | _, _ => (p, none, [])

/-- What can happen to the system: the pipeline calls `on_push_frame`, or the
cooperative scheduler gives proxy `i`'s drain task a turn. -/
inductive SysAction
  | push (src dst frame : Nat) (direction : FrameDirection) (timestamp : Int)
  | run (i : Nat)
deriving DecidableEq, Repr

/-- The observers' behaviours: `fails i d = true` means observer `i`'s
`on_push_frame` raises when invoked on `d`. -/
def sysStep (fails : Nat → ObserverData → Bool) (st : SysState) (a : SysAction) : SysState :=
  match a with
  | SysAction.push src dst frame dir ts => on_push_frame st src dst frame dir ts
  | SysAction.run i =>
      match st.proxies[i]? with
      | none => st
      | some p =>
          let r := proxyIter (fails i) (proxyName i) p
          { st with proxies := st.proxies.set i r.1, log := st.log ++ r.2.2 }

/-- Run a sequence of actions. -/
def sysRun (fails : Nat → ObserverData → Bool) (st : SysState)
    (acts : List SysAction) : SysState :=
  List.foldl (sysStep fails) st acts

/-- The `ObserverData` records of the `on_push_frame` calls in a trace, in
call order. -/
def pushedEvents : List SysAction → List ObserverData
  | [] => []
  | SysAction.push src dst frame dir ts :: rest =>
      { src := src, dst := dst, frame := frame, direction := dir, timestamp := ts } ::
        pushedEvents rest
  | SysAction.run _ :: rest => pushedEvents rest

/-- The loop of `TaskObserver.stop` over proxy indices `idxs`: for each
proxy, `await cancel_task(proxy.task)` (default `timeout=None`); the await
outcome for proxy `i` is `outs i`.  `task.cancel()` moves a running drain
task to `cancelled`.  If `cancel_task` propagated an exception the loop
would abort with it. -/
def stopFrom (outs : Nat → AwaitOutcome) (st : SysState) :
    List Nat → SysState × Option PyExn
  | [] => (st, none)
  | i :: rest =>
      match st.proxies[i]? with
      | none => stopFrom outs st rest
      | some p =>
          let r := cancel_task st.registry p.task (proxyName i) none (outs i)
          let p2 := { p with status :=
            if p.status = ProxyStatus.running then ProxyStatus.cancelled else p.status }
          let st2 : SysState :=
            { registry := r.registry
              proxies := st.proxies.set i p2
              log := st.log ++ r.log }
          match r.raised with
          | some e => (st2, some e)
          | none => stopFrom outs st2 rest

/-- Model of `TaskObserver.stop` (task_observer.py): cancel every proxy's task, in
proxy order. -/
def stop (outs : Nat → AwaitOutcome) (st : SysState) : SysState × Option PyExn :=
  stopFrom outs st (List.range st.proxies.length)

/-! ## Helper lemmas -/

theorem lt_of_getElem?_some {α : Type} {l : List α} {i : Nat} {a : α}
    (h : l[i]? = some a) : i < l.length := by
  by_contra hn
  push_neg at hn
  rw [List.getElem?_eq_none hn] at h
  simp at h

/-- One handler iteration never loses or reorders data: the concatenation of
invoked events and queued events is unchanged, and the task id is fixed. -/
theorem proxyIter_inv (fails : ObserverData → Bool) (name : String) (p : ProxyState) :
    ((proxyIter fails name p).1).invoked ++ ((proxyIter fails name p).1).queue =
      p.invoked ++ p.queue ∧ ((proxyIter fails name p).1).task = p.task := by
  obtain ⟨q, t, s, inv⟩ := p
  cases s <;> cases q <;> simp [proxyIter]

/-- A terminated or cancelled proxy is left untouched by a scheduler turn. -/
theorem proxyIter_not_running (fails : ObserverData → Bool) (name : String)
    (p : ProxyState) (h : p.status ≠ ProxyStatus.running) :
    (proxyIter fails name p).1 = p := by
  obtain ⟨q, t, s, inv⟩ := p
  cases s <;> cases q <;> simp_all [proxyIter]

theorem sysStep_length (fails : Nat → ObserverData → Bool) (st : SysState) (a : SysAction) :
    (sysStep fails st a).proxies.length = st.proxies.length := by
  cases a with
  | push src dst frame dir ts => simp [sysStep, on_push_frame]
  | run i =>
      cases h : st.proxies[i]? with
      | none => simp [sysStep, h]
      | some p => simp [sysStep, h]

/-- Per-proxy FIFO invariant: running any trace from any state extends each
proxy's `invoked ++ queue` by exactly the events of the trace's
`on_push_frame` calls, in call order, and never changes the proxy's task id. -/
theorem fifoInv (fails : Nat → ObserverData → Bool) :
    ∀ (acts : List SysAction) (st : SysState) (j : Nat) (p0 : ProxyState),
      st.proxies[j]? = some p0 →
      ∃ p, (sysRun fails st acts).proxies[j]? = some p ∧
        p.invoked ++ p.queue = p0.invoked ++ p0.queue ++ pushedEvents acts ∧
        p.task = p0.task := by
  intro acts
  induction acts with
  | nil =>
      intro st j p0 h
      exact ⟨p0, h, by simp [pushedEvents], rfl⟩
  | cons a rest ih =>
      intro st j p0 h
      have hrun : sysRun fails st (a :: rest) = sysRun fails (sysStep fails st a) rest := rfl
      cases a with
      | push src dst frame dir ts =>
          have h1 : (sysStep fails st (SysAction.push src dst frame dir ts)).proxies[j]? =
              some { p0 with queue := p0.queue ++
                [{ src := src, dst := dst, frame := frame,
                   direction := dir, timestamp := ts }] } := by
            simp [sysStep, on_push_frame, List.getElem?_map, h]
          obtain ⟨p, hp, heq, htask⟩ := ih _ j _ h1
          refine ⟨p, by rw [hrun]; exact hp, ?_, htask⟩
          rw [heq]
          simp [pushedEvents, List.append_assoc]
      | run k =>
          by_cases hjk : j = k
          · subst hjk
            have hlen : j < st.proxies.length := lt_of_getElem?_some h
            have h1 : (sysStep fails st (SysAction.run j)).proxies[j]? =
                some (proxyIter (fails j) (proxyName j) p0).1 := by
              simp [sysStep, h, List.getElem?_set_self, hlen]
            obtain ⟨p, hp, heq, htask⟩ := ih _ j _ h1
            obtain ⟨hinv, htask0⟩ := proxyIter_inv (fails j) (proxyName j) p0
            refine ⟨p, by rw [hrun]; exact hp, ?_, by rw [htask, htask0]⟩
            rw [heq, hinv]
            simp [pushedEvents]
          · have h1 : (sysStep fails st (SysAction.run k)).proxies[j]? = some p0 := by
              cases hk : st.proxies[k]? with
              | none => simp [sysStep, hk, h]
              | some pk => simp [sysStep, hk, List.getElem?_set_ne, Ne.symm hjk, h]
            obtain ⟨p, hp, heq, htask⟩ := ih _ j _ h1
            refine ⟨p, by rw [hrun]; exact hp, ?_, htask⟩
            rw [heq]
            simp [pushedEvents]

/-- Once a proxy's task has terminated (its observer raised and the wrapper
absorbed the failure), no further trace ever changes its `invoked` list or
revives it: there is no recovery path out of `terminated`. -/
theorem terminatedFrozen (fails : Nat → ObserverData → Bool) :
    ∀ (acts : List SysAction) (st : SysState) (i : Nat) (p : ProxyState),
      st.proxies[i]? = some p → p.status = ProxyStatus.terminated →
      ∃ q, (sysRun fails st acts).proxies[i]? = some q ∧
        q.invoked = p.invoked ∧ q.status = ProxyStatus.terminated ∧ q.task = p.task := by
  intro acts
  induction acts with
  | nil => intro st i p h hs; exact ⟨p, h, rfl, hs, rfl⟩
  | cons a rest ih =>
      intro st i p h hs
      have hrun : sysRun fails st (a :: rest) = sysRun fails (sysStep fails st a) rest := rfl
      cases a with
      | push src dst frame dir ts =>
          have h1 : (sysStep fails st (SysAction.push src dst frame dir ts)).proxies[i]? =
              some { p with queue := p.queue ++
                [{ src := src, dst := dst, frame := frame,
                   direction := dir, timestamp := ts }] } := by
            simp [sysStep, on_push_frame, List.getElem?_map, h]
          obtain ⟨q, hq, hinv, hstat, htask⟩ := ih _ i _ h1 hs
          exact ⟨q, by rw [hrun]; exact hq, hinv, hstat, htask⟩
      | run k =>
          by_cases hik : i = k
          · subst hik
            have hlen : i < st.proxies.length := lt_of_getElem?_some h
            have hfix : (proxyIter (fails i) (proxyName i) p).1 = p :=
              proxyIter_not_running _ _ _ (by rw [hs]; simp)
            have h1 : (sysStep fails st (SysAction.run i)).proxies[i]? = some p := by
              simp [sysStep, h, hfix, List.getElem?_set_self, hlen]
            obtain ⟨q, hq, hinv, hstat, htask⟩ := ih _ i _ h1 hs
            exact ⟨q, by rw [hrun]; exact hq, hinv, hstat, htask⟩
          · have h1 : (sysStep fails st (SysAction.run k)).proxies[i]? = some p := by
              cases hk : st.proxies[k]? with
              | none => simp [sysStep, hk, h]
              | some pk => simp [sysStep, hk, List.getElem?_set_ne, Ne.symm hik, h]
            obtain ⟨q, hq, hinv, hstat, htask⟩ := ih _ i _ h1 hs
            exact ⟨q, by rw [hrun]; exact hq, hinv, hstat, htask⟩

/-- Draining: a running proxy whose observer does not fail on any queued
event delivers its whole queue, in order, when the scheduler runs it once
per queued event. -/
theorem drainQueue (fails : Nat → ObserverData → Bool) (i : Nat) :
    ∀ (q : List ObserverData) (st : SysState) (p : ProxyState),
      st.proxies[i]? = some p → p.status = ProxyStatus.running → p.queue = q →
      (∀ d ∈ q, fails i d = false) →
      ∃ r, (sysRun fails st (List.replicate q.length (SysAction.run i))).proxies[i]? = some r ∧
        r.invoked = p.invoked ++ q ∧ r.queue = [] ∧ r.status = ProxyStatus.running := by
  intro q
  induction q with
  | nil =>
      intro st p h hs hq _
      exact ⟨p, h, by simp, hq, hs⟩
  | cons d rest ih =>
      intro st p h hs hq hf
      have hlen : i < st.proxies.length := lt_of_getElem?_some h
      have hfd : fails i d = false := hf d (by simp)
      have hiter : (proxyIter (fails i) (proxyName i) p).1 =
          { p with
            queue := rest
            invoked := p.invoked ++ [d]
            status := ProxyStatus.running } := by
        obtain ⟨pq, pt, ps, pinv⟩ := p
        simp only at hq hs
        subst hq hs
        simp [proxyIter, hfd]
      have h1 : (sysStep fails st (SysAction.run i)).proxies[i]? =
          some { p with
            queue := rest
            invoked := p.invoked ++ [d]
            status := ProxyStatus.running } := by
        simp [sysStep, h, hiter, List.getElem?_set_self, hlen]
      obtain ⟨r, hr, hinv, hrq, hrs⟩ :=
        ih _ _ h1 rfl rfl (fun e he => hf e (by simp [he]))
      refine ⟨r, ?_, by simp [hinv, List.append_assoc], hrq, hrs⟩
      simpa [List.replicate_succ] using hr

/-- Closed form of the `_create_proxies` loop's effect on the proxy list. -/
theorem foldl_createProxy_proxies :
    ∀ (l : List Nat) (st : SysState),
      (l.foldl createProxy st).proxies = st.proxies ++ l.map freshProxy := by
  intro l
  induction l with
  | nil => intro st; simp
  | cons i rest ih =>
      intro st
      rw [List.foldl_cons, ih]
      simp [createProxy]

/-- The proxies built by `TaskObserver.__init__` with `n` observers: one
fresh proxy per observer, task ids `0 … n-1`, in observer order. -/
theorem init_proxies_getElem (n i : Nat) (h : i < n) :
    (TaskObserver.init n).proxies[i]? = some (freshProxy i) := by
  rw [TaskObserver.init, foldl_createProxy_proxies]
  simp [List.getElem?_map, List.getElem?_range, h]

/-- The `finally` block always takes the handle out of the registry. -/
theorem removeFromRegistry_not_mem (reg : List Nat) (t : Nat) (name : String) :
    t ∉ (removeFromRegistry reg t name).1 := by
  by_cases h : t ∈ reg <;> simp [removeFromRegistry, setRemove, h]

/-- The `finally` block never adds handles to the registry. -/
theorem removeFromRegistry_mono (reg : List Nat) (t x : Nat) (name : String)
    (h : x ∉ reg) : x ∉ (removeFromRegistry reg t name).1 := by
  by_cases ht : t ∈ reg
  · have hr : (removeFromRegistry reg t name).1 = reg.filter (fun y => y ≠ t) := by
      simp [removeFromRegistry, setRemove, ht]
    rw [hr]
    intro hx
    exact h (List.mem_filter.mp hx).1
  · have hr : (removeFromRegistry reg t name).1 = reg := by
      simp [removeFromRegistry, setRemove, ht]
    rw [hr]
    exact h

/-- The `finally` block itself raises nothing: `set.remove` can only raise
`KeyError`, and that is caught and logged. -/
theorem removeFromRegistry_raises_none (reg : List Nat) (t : Nat) (name : String) :
    (removeFromRegistry reg t name).2.2 = none := by
  by_cases h : t ∈ reg <;> simp [removeFromRegistry, setRemove, h]

/-- When the handle is already absent, the `finally` block logs the
double-removal error (and, per `removeFromRegistry_raises_none`, still
raises nothing). -/
theorem removeFromRegistry_absent_logs (reg : List Nat) (t : Nat) (name : String)
    (h : t ∉ reg) :
    LogMsg.error (name ++ ": error removing task (already removed?)") ∈
      (removeFromRegistry reg t name).2.1 := by
  simp [removeFromRegistry, setRemove, h]

theorem wait_for_task_registry (reg : List Nat) (t : Nat) (name : String)
    (timeout : Option ℚ) (outcome : AwaitOutcome) :
    (wait_for_task reg t name timeout outcome).registry = (removeFromRegistry reg t name).1 := rfl

theorem cancel_task_registry (reg : List Nat) (t : Nat) (name : String)
    (timeout : Option ℚ) (outcome : AwaitOutcome) :
    (cancel_task reg t name timeout outcome).registry = (removeFromRegistry reg t name).1 := rfl

/-- The function `wait_for_task` propagates no exception, whatever the task did. -/
theorem wait_for_task_raises_none (reg : List Nat) (t : Nat) (name : String)
    (timeout : Option ℚ) (outcome : AwaitOutcome) :
    (wait_for_task reg t name timeout outcome).raised = none := by
  have hfin := removeFromRegistry_raises_none reg t name
  cases outcome <;> simp [wait_for_task, awaitExn, PyExn.isException, hfin]

/-- The function `cancel_task` propagates no exception, whatever the task did. -/
theorem cancel_task_raises_none (reg : List Nat) (t : Nat) (name : String)
    (timeout : Option ℚ) (outcome : AwaitOutcome) :
    (cancel_task reg t name timeout outcome).raised = none := by
  have hfin := removeFromRegistry_raises_none reg t name
  cases outcome <;> simp [cancel_task, awaitExn, PyExn.isException, hfin]

/-- The state after one iteration of `stop`'s loop on proxy `i`. -/
def stopStepState (outs : Nat → AwaitOutcome) (st : SysState) (i : Nat) (p : ProxyState) :
    SysState :=
  { registry := (cancel_task st.registry p.task (proxyName i) none (outs i)).registry
    proxies := st.proxies.set i { p with status :=
      if p.status = ProxyStatus.running then ProxyStatus.cancelled else p.status }
    log := st.log ++ (cancel_task st.registry p.task (proxyName i) none (outs i)).log }

theorem stopFrom_cons_none (outs : Nat → AwaitOutcome) (st : SysState) (i : Nat)
    (rest : List Nat) (h : st.proxies[i]? = none) :
    stopFrom outs st (i :: rest) = stopFrom outs st rest := by
  simp only [stopFrom, h]

theorem stopFrom_cons_some (outs : Nat → AwaitOutcome) (st : SysState) (i : Nat)
    (rest : List Nat) (p : ProxyState) (h : st.proxies[i]? = some p) :
    stopFrom outs st (i :: rest) = stopFrom outs (stopStepState outs st i p) rest := by
  simp only [stopFrom, h, cancel_task_raises_none, stopStepState]

/-- The loop of `stop` itself never propagates an exception: each `cancel_task`
absorbs everything. -/
theorem stopFrom_raised_none (outs : Nat → AwaitOutcome) :
    ∀ (idxs : List Nat) (st : SysState), (stopFrom outs st idxs).2 = none := by
  intro idxs
  induction idxs with
  | nil => intro st; rfl
  | cons i rest ih =>
      intro st
      cases h : st.proxies[i]? with
      | none => rw [stopFrom_cons_none outs st i rest h]; exact ih st
      | some p => rw [stopFrom_cons_some outs st i rest p h]; exact ih _

/-- The loop of `stop` never adds handles to the registry. -/
theorem stopFrom_mono (outs : Nat → AwaitOutcome) :
    ∀ (idxs : List Nat) (st : SysState) (x : Nat),
      x ∉ st.registry → x ∉ ((stopFrom outs st idxs).1).registry := by
  intro idxs
  induction idxs with
  | nil => intro st x h; exact h
  | cons i rest ih =>
      intro st x h
      cases hp : st.proxies[i]? with
      | none => rw [stopFrom_cons_none outs st i rest hp]; exact ih st x h
      | some p =>
          rw [stopFrom_cons_some outs st i rest p hp]
          refine ih _ x ?_
          show x ∉ (cancel_task st.registry p.task (proxyName i) none (outs i)).registry
          rw [cancel_task_registry]
          exact removeFromRegistry_mono _ _ _ _ h

/-- The loop of `stop` only changes proxy statuses: queues, invocation histories
and task ids survive it. -/
theorem stopFrom_proxies (outs : Nat → AwaitOutcome) :
    ∀ (idxs : List Nat) (st : SysState) (j : Nat) (p : ProxyState),
      st.proxies[j]? = some p →
      ∃ q, ((stopFrom outs st idxs).1).proxies[j]? = some q ∧
        q.task = p.task ∧ q.queue = p.queue ∧ q.invoked = p.invoked := by
  intro idxs
  induction idxs with
  | nil => intro st j p h; exact ⟨p, h, rfl, rfl, rfl⟩
  | cons i rest ih =>
      intro st j p h
      cases hp : st.proxies[i]? with
      | none => rw [stopFrom_cons_none outs st i rest hp]; exact ih st j p h
      | some pi =>
          rw [stopFrom_cons_some outs st i rest pi hp]
          by_cases hji : j = i
          · subst hji
            have hpi : p = pi := by rw [h] at hp; exact Option.some_inj.mp hp
            subst hpi
            have hlen : j < st.proxies.length := lt_of_getElem?_some h
            have h2 : (stopStepState outs st j p).proxies[j]? =
                some { p with status :=
                  if p.status = ProxyStatus.running then ProxyStatus.cancelled
                  else p.status } := by
              simp [stopStepState, List.getElem?_set_self, hlen]
            obtain ⟨q, hq, h1, h2', h3⟩ := ih _ j _ h2
            exact ⟨q, hq, h1, h2', h3⟩
          · have h2 : (stopStepState outs st i pi).proxies[j]? = some p := by
              simp [stopStepState, List.getElem?_set_ne, Ne.symm hji, h]
            exact ih _ j p h2

/-- After `stop`'s loop has visited index `i`, proxy `i`'s task handle is out
of the registry for good. -/
theorem stopFrom_removes (outs : Nat → AwaitOutcome) :
    ∀ (idxs : List Nat) (st : SysState) (i : Nat) (p : ProxyState),
      i ∈ idxs → st.proxies[i]? = some p →
      p.task ∉ ((stopFrom outs st idxs).1).registry := by
  intro idxs
  induction idxs with
  | nil => intro st i p hmem; exact absurd hmem (List.not_mem_nil i)
  | cons j rest ih =>
      intro st i p hmem h
      cases hj : st.proxies[j]? with
      | none =>
          rw [stopFrom_cons_none outs st j rest hj]
          rcases List.mem_cons.mp hmem with hij | hrest
          · subst hij; rw [h] at hj; exact absurd hj (by simp)
          · exact ih st i p hrest h
      | some pj =>
          rw [stopFrom_cons_some outs st j rest pj hj]
          by_cases hij : i = j
          · subst hij
            have hp : p = pj := by rw [h] at hj; exact Option.some_inj.mp hj
            subst hp
            refine stopFrom_mono outs rest _ p.task ?_
            show p.task ∉ (cancel_task st.registry p.task (proxyName i) none (outs i)).registry
            rw [cancel_task_registry]
            exact removeFromRegistry_not_mem _ _ _
          · rcases List.mem_cons.mp hmem with hij' | hrest
            · exact absurd hij' hij
            · have h2 : (stopStepState outs st j pj).proxies[i]? = some p := by
                simp [stopStepState, List.getElem?_set_ne, Ne.symm hij, h]
              exact ih _ i p hrest h2

theorem sysRun_length (fails : Nat → ObserverData → Bool) :
    ∀ (acts : List SysAction) (st : SysState),
      (sysRun fails st acts).proxies.length = st.proxies.length := by
  intro acts
  induction acts with
  | nil => intro st; rfl
  | cons a rest ih =>
      intro st
      have : sysRun fails st (a :: rest) = sysRun fails (sysStep fails st a) rest := rfl
      rw [this, ih, sysStep_length]

theorem init_length (n : Nat) : (TaskObserver.init n).proxies.length = n := by
  rw [TaskObserver.init, foldl_createProxy_proxies]
  simp

theorem wait_for_task_log (reg : List Nat) (t : Nat) (name : String)
    (timeout : Option ℚ) (outcome : AwaitOutcome) :
    ∃ l, (wait_for_task reg t name timeout outcome).log =
      l ++ (removeFromRegistry reg t name).2.1 := ⟨_, rfl⟩

theorem cancel_task_log (reg : List Nat) (t : Nat) (name : String)
    (timeout : Option ℚ) (outcome : AwaitOutcome) :
    ∃ l, (cancel_task reg t name timeout outcome).log =
      l ++ (removeFromRegistry reg t name).2.1 := ⟨_, rfl⟩

/-! ## Concrete scenario fixtures -/

/-- Observers that never raise. -/
def noFail : Nat → ObserverData → Bool := fun _ _ => false

/-- Only observer 0 raises (on every event). -/
def firstObserverFails : Nat → ObserverData → Bool := fun i _ => i == 0

/-- Every observer raises on every event. -/
def allFail : Nat → ObserverData → Bool := fun _ _ => true

def ev1 : ObserverData :=
  { src := 0, dst := 1, frame := 10, direction := FrameDirection.downstream, timestamp := 1 }

def ev2 : ObserverData :=
  { src := 1, dst := 2, frame := 11, direction := FrameDirection.upstream, timestamp := 2 }

/-- Two pushes, then one scheduler turn for proxy 0. -/
def actsA : List SysAction :=
  [SysAction.push 0 1 10 FrameDirection.downstream 1,
   SysAction.push 1 2 11 FrameDirection.upstream 2,
   SysAction.run 0]

/-- Proxy 0 of a two-observer fan-out after `actsA`. -/
def pA0 : ProxyState :=
  { queue := [ev2], task := 0, status := ProxyStatus.running, invoked := [ev1] }

/-- Every cancellation unwinds normally. -/
def outsC : Nat → AwaitOutcome := fun _ => AwaitOutcome.cancelled

/-! ## Claims -/

/-- C1: for every trace of `on_push_frame` calls and scheduler turns on a
fan-out with `n` observers, each proxy's sequence of observer invocations
followed by its still-queued events equals the full sequence of pushed
events in call order — so per-observer delivery is FIFO and matches the
call order of `on_push_frame`; and a live (running, non-failing) proxy
given enough scheduler turns has invoked exactly the pushed events, in that
exact relative order. -/
theorem C1_per_observer_fifo (n : Nat) (fails : Nat → ObserverData → Bool)
    (acts : List SysAction) (i : Nat) (p : ProxyState)
    (h : (sysRun fails (TaskObserver.init n) acts).proxies[i]? = some p) :
    p.invoked ++ p.queue = pushedEvents acts ∧
    (p.status = ProxyStatus.running → (∀ d ∈ p.queue, fails i d = false) →
      ∃ r, (sysRun fails (sysRun fails (TaskObserver.init n) acts)
              (List.replicate p.queue.length (SysAction.run i))).proxies[i]? = some r ∧
        r.invoked = pushedEvents acts) := by
  have hin : i < n := by
    have := lt_of_getElem?_some h
    rwa [sysRun_length, init_length] at this
  obtain ⟨p', hp', heq, _⟩ :=
    fifoInv fails acts (TaskObserver.init n) i (freshProxy i) (init_proxies_getElem n i hin)
  have hpp : p = p' := by rw [h] at hp'; exact Option.some_inj.mp hp'
  subst hpp
  have hfifo : p.invoked ++ p.queue = pushedEvents acts := by
    simpa [freshProxy] using heq
  refine ⟨hfifo, fun hs hf => ?_⟩
  obtain ⟨r, hr, hinv, _, _⟩ :=
    drainQueue fails i p.queue (sysRun fails (TaskObserver.init n) acts) p h hs rfl hf
  exact ⟨r, hr, by rw [hinv, hfifo]⟩

theorem C1_per_observer_fifo_witness :
    ((sysRun noFail (TaskObserver.init 2) actsA).proxies[0]? = some pA0) ∧
    (pA0.invoked ++ pA0.queue = pushedEvents actsA ∧
      (pA0.status = ProxyStatus.running → (∀ d ∈ pA0.queue, noFail 0 d = false) →
        ∃ r, (sysRun noFail (sysRun noFail (TaskObserver.init 2) actsA)
                (List.replicate pA0.queue.length (SysAction.run 0))).proxies[0]? = some r ∧
          r.invoked = pushedEvents actsA)) :=
  ⟨by decide, C1_per_observer_fifo 2 noFail actsA 0 pA0 (by decide)⟩

/-- C2: `on_push_frame(src, dst, frame, direction, timestamp)` appends one
freshly constructed `ObserverData` carrying exactly those fields to every
proxy's queue, keeping proxy count and order; it leaves the registry, the
log, and every proxy's task, status and invocation history untouched — the
producer never invokes or awaits any observer's processing. -/
theorem C2_on_push_frame_enqueues (st : SysState) (src dst frame : Nat)
    (direction : FrameDirection) (timestamp : Int) :
    (on_push_frame st src dst frame direction timestamp).registry = st.registry ∧
    (on_push_frame st src dst frame direction timestamp).log = st.log ∧
    (on_push_frame st src dst frame direction timestamp).proxies.length =
      st.proxies.length ∧
    ∀ (i : Nat) (p : ProxyState), st.proxies[i]? = some p →
      (on_push_frame st src dst frame direction timestamp).proxies[i]? =
        some { p with queue := p.queue ++
          [{ src := src, dst := dst, frame := frame,
             direction := direction, timestamp := timestamp }] } := by
  refine ⟨rfl, rfl, by simp [on_push_frame], fun i p h => ?_⟩
  simp [on_push_frame, List.getElem?_map, h]

theorem C2_on_push_frame_enqueues_witness :
    ((TaskObserver.init 2).proxies[1]? = some (freshProxy 1)) ∧
    (on_push_frame (TaskObserver.init 2) 0 1 10 FrameDirection.downstream 1).proxies[1]? =
      some { freshProxy 1 with queue := (freshProxy 1).queue ++ [ev1] } :=
  ⟨by decide,
   (C2_on_push_frame_enqueues (TaskObserver.init 2) 0 1 10
      FrameDirection.downstream 1).2.2.2 1 (freshProxy 1) (by decide)⟩

/-- C3: after `stop()` returns, no proxy task handle of the fan-out remains
in the registry, and `stop()` itself propagates no exception. -/
theorem C3_stop_clears_registry (outs : Nat → AwaitOutcome) (st : SysState)
    (i : Nat) (p : ProxyState) (h : st.proxies[i]? = some p) :
    p.task ∉ ((stop outs st).1).registry ∧ (stop outs st).2 = none := by
  refine ⟨?_, stopFrom_raised_none outs _ st⟩
  have hin : i ∈ List.range st.proxies.length :=
    List.mem_range.mpr (lt_of_getElem?_some h)
  exact stopFrom_removes outs (List.range st.proxies.length) st i p hin h

theorem C3_stop_clears_registry_witness :
    ((TaskObserver.init 2).proxies[1]? = some (freshProxy 1)) ∧
    ((freshProxy 1).task ∉ ((stop outsC (TaskObserver.init 2)).1).registry ∧
      (stop outsC (TaskObserver.init 2)).2 = none) :=
  ⟨by decide, C3_stop_clears_registry outsC (TaskObserver.init 2) 1 (freshProxy 1) (by decide)⟩

/-- C4: neither `wait_for_task` nor `cancel_task` ever propagates an
exception to its caller, for every registry state, task, timeout value and
await outcome (completion, timeout, cancellation, unexpected exception). -/
theorem C4_no_propagation (reg : List Nat) (t : Nat) (name : String)
    (timeout : Option ℚ) (outcome : AwaitOutcome) :
    (wait_for_task reg t name timeout outcome).raised = none ∧
    (cancel_task reg t name timeout outcome).raised = none :=
  ⟨wait_for_task_raises_none reg t name timeout outcome,
   cancel_task_raises_none reg t name timeout outcome⟩

/-- C5: every `wait_for_task` / `cancel_task` call removes the handle from
the registry on every exit path, and removing an already-absent handle is
logged (as a double-removal error) but raises nothing. -/
theorem C5_always_removes (reg : List Nat) (t : Nat) (name : String)
    (timeout : Option ℚ) (outcome : AwaitOutcome) :
    t ∉ (wait_for_task reg t name timeout outcome).registry ∧
    t ∉ (cancel_task reg t name timeout outcome).registry ∧
    (t ∉ reg →
      LogMsg.error (name ++ ": error removing task (already removed?)") ∈
        (wait_for_task reg t name timeout outcome).log ∧
      LogMsg.error (name ++ ": error removing task (already removed?)") ∈
        (cancel_task reg t name timeout outcome).log ∧
      (wait_for_task reg t name timeout outcome).raised = none ∧
      (cancel_task reg t name timeout outcome).raised = none) := by
  refine ⟨?_, ?_, fun habs => ⟨?_, ?_, wait_for_task_raises_none reg t name timeout outcome,
    cancel_task_raises_none reg t name timeout outcome⟩⟩
  · rw [wait_for_task_registry]; exact removeFromRegistry_not_mem reg t name
  · rw [cancel_task_registry]; exact removeFromRegistry_not_mem reg t name
  · obtain ⟨l, hl⟩ := wait_for_task_log reg t name timeout outcome
    rw [hl]
    exact List.mem_append_right l (removeFromRegistry_absent_logs reg t name habs)
  · obtain ⟨l, hl⟩ := cancel_task_log reg t name timeout outcome
    rw [hl]
    exact List.mem_append_right l (removeFromRegistry_absent_logs reg t name habs)

theorem C5_always_removes_witness :
    ((0 : Nat) ∉ ([] : List Nat)) ∧
    ((0 : Nat) ∉ (wait_for_task [] 0 "w" none AwaitOutcome.completed).registry ∧
      (0 : Nat) ∉ (cancel_task [] 0 "w" none AwaitOutcome.completed).registry ∧
      ((0 : Nat) ∉ ([] : List Nat) →
        LogMsg.error ("w" ++ ": error removing task (already removed?)") ∈
          (wait_for_task [] 0 "w" none AwaitOutcome.completed).log ∧
        LogMsg.error ("w" ++ ": error removing task (already removed?)") ∈
          (cancel_task [] 0 "w" none AwaitOutcome.completed).log ∧
        (wait_for_task [] 0 "w" none AwaitOutcome.completed).raised = none ∧
        (cancel_task [] 0 "w" none AwaitOutcome.completed).raised = none)) :=
  ⟨by decide, C5_always_removes [] 0 "w" none AwaitOutcome.completed⟩

/-- C6: on a task that never completes, `wait_for_task` with a truthy
timeout `T` takes the time-bounded branch; when the timeout elapses it
returns without raising, logs the warning, and still removes the handle
from the registry even though the underlying task may still be running. -/
theorem C6_timeout_path (reg : List Nat) (t : Nat) (name : String) (T : ℚ)
    (hT : T ≠ 0) :
    (wait_for_task reg t name (some T) AwaitOutcome.timedOut).mode = AwaitMode.bounded T ∧
    (wait_for_task reg t name (some T) AwaitOutcome.timedOut).raised = none ∧
    t ∉ (wait_for_task reg t name (some T) AwaitOutcome.timedOut).registry ∧
    LogMsg.warning (name ++ ": timed out waiting for task to finish") ∈
      (wait_for_task reg t name (some T) AwaitOutcome.timedOut).log := by
  refine ⟨?_, wait_for_task_raises_none reg t name (some T) AwaitOutcome.timedOut, ?_, ?_⟩
  · have : (wait_for_task reg t name (some T) AwaitOutcome.timedOut).mode =
        awaitMode (some T) := rfl
    rw [this, awaitMode]
    simp [truthy, hT]
  · rw [wait_for_task_registry]; exact removeFromRegistry_not_mem reg t name
  · obtain ⟨l, hl⟩ := wait_for_task_log reg t name (some T) AwaitOutcome.timedOut
    show _ ∈ (wait_for_task reg t name (some T) AwaitOutcome.timedOut).log
    simp [wait_for_task, awaitExn]

theorem C6_timeout_path_witness :
    ((5 : ℚ) ≠ 0) ∧
    ((wait_for_task [0, 1] 0 "w" (some 5) AwaitOutcome.timedOut).mode = AwaitMode.bounded 5 ∧
      (wait_for_task [0, 1] 0 "w" (some 5) AwaitOutcome.timedOut).raised = none ∧
      (0 : Nat) ∉ (wait_for_task [0, 1] 0 "w" (some 5) AwaitOutcome.timedOut).registry ∧
      LogMsg.warning ("w" ++ ": timed out waiting for task to finish") ∈
        (wait_for_task [0, 1] 0 "w" (some 5) AwaitOutcome.timedOut).log) :=
  ⟨by decide, C6_timeout_path [0, 1] 0 "w" 5 (by decide)⟩

/-- C9: calling `stop()` a second time after a completed `stop()` does not
fail: the second call propagates no exception to its caller, and every
proxy task handle is (still) absent from the registry afterwards. -/
theorem C9_stop_idempotent (outs1 outs2 : Nat → AwaitOutcome) (st : SysState) :
    (stop outs2 (stop outs1 st).1).2 = none ∧
    ∀ (i : Nat) (p : ProxyState), ((stop outs1 st).1).proxies[i]? = some p →
      p.task ∉ ((stop outs2 (stop outs1 st).1).1).registry := by
  refine ⟨stopFrom_raised_none outs2 _ _, fun i p h => ?_⟩
  have hin : i ∈ List.range ((stop outs1 st).1).proxies.length :=
    List.mem_range.mpr (lt_of_getElem?_some h)
  exact stopFrom_removes outs2 _ _ i p hin h

theorem C9_stop_idempotent_witness :
    ((stop outsC (TaskObserver.init 2)).1).proxies[0]? =
      some { queue := [], task := 0, status := ProxyStatus.cancelled, invoked := [] } ∧
    (stop outsC (stop outsC (TaskObserver.init 2)).1).2 = none ∧
    ({ queue := [], task := 0, status := ProxyStatus.cancelled,
       invoked := [] : ProxyState }).task ∉
      ((stop outsC (stop outsC (TaskObserver.init 2)).1).1).registry :=
  ⟨by decide, (C9_stop_idempotent outsC outsC (TaskObserver.init 2)).1,
   (C9_stop_idempotent outsC outsC (TaskObserver.init 2)).2 0
     { queue := [], task := 0, status := ProxyStatus.cancelled, invoked := [] } (by decide)⟩

/-- C10: passing `timeout=0` to `wait_for_task` or `cancel_task` behaves
exactly like `timeout=None`: `0` is falsy, so the `if timeout:` branch is
not taken and the caller awaits the task with no time bound at all. -/
theorem C10_zero_timeout_is_none (reg : List Nat) (t : Nat) (name : String)
    (outcome : AwaitOutcome) :
    wait_for_task reg t name (some 0) outcome = wait_for_task reg t name none outcome ∧
    cancel_task reg t name (some 0) outcome = cancel_task reg t name none outcome ∧
    (wait_for_task reg t name (some 0) outcome).mode = AwaitMode.unbounded ∧
    (cancel_task reg t name (some 0) outcome).mode = AwaitMode.unbounded := by
  refine ⟨?_, ?_, ?_, ?_⟩ <;>
    simp [wait_for_task, cancel_task, awaitMode, truthy]

/-- C7: if proxy `i`'s observer raises an unhandled exception while its task
dispatches event `d`, then (1) the wrapper absorbs the exception — nothing
escapes to the scheduler; (2) the proxy task terminates, having invoked the
observer one last time on `d`; (3) the step touches no other proxy; (4) on
every continuation of the trace the failed observer receives no further
events and the task never leaves `terminated`; (5) every other observer's
proxy continues to receive subsequent events normally, in FIFO order. -/
theorem C7_observer_failure (fails : Nat → ObserverData → Bool) (st : SysState)
    (i : Nat) (p : ProxyState) (d : ObserverData) (rest : List ObserverData)
    (h : st.proxies[i]? = some p) (hs : p.status = ProxyStatus.running)
    (hq : p.queue = d :: rest) (hf : fails i d = true) :
    (proxyIter (fails i) (proxyName i) p).2.1 = none ∧
    (sysStep fails st (SysAction.run i)).proxies[i]? =
      some { p with
        queue := rest
        invoked := p.invoked ++ [d]
        status := ProxyStatus.terminated } ∧
    (∀ j : Nat, j ≠ i → (sysStep fails st (SysAction.run i)).proxies[j]? = st.proxies[j]?) ∧
    (∀ (acts : List SysAction) (q : ProxyState),
      (sysRun fails (sysStep fails st (SysAction.run i)) acts).proxies[i]? = some q →
      q.invoked = p.invoked ++ [d] ∧ q.status = ProxyStatus.terminated) ∧
    (∀ (acts : List SysAction) (j : Nat) (p0 : ProxyState), j ≠ i →
      st.proxies[j]? = some p0 →
      ∃ q, (sysRun fails (sysStep fails st (SysAction.run i)) acts).proxies[j]? = some q ∧
        q.invoked ++ q.queue = p0.invoked ++ p0.queue ++ pushedEvents acts) := by
  have hlen : i < st.proxies.length := lt_of_getElem?_some h
  have hiter1 : (proxyIter (fails i) (proxyName i) p).1 =
      { p with
        queue := rest
        invoked := p.invoked ++ [d]
        status := ProxyStatus.terminated } := by
    obtain ⟨pq, pt, ps, pinv⟩ := p
    simp only at hq hs
    subst hq hs
    simp [proxyIter, hf]
  have hiter2 : (proxyIter (fails i) (proxyName i) p).2.1 = none := by
    obtain ⟨pq, pt, ps, pinv⟩ := p
    simp only at hq hs
    subst hq hs
    simp [proxyIter, hf, run_coroutine, PyExn.isException]
  have hstep : (sysStep fails st (SysAction.run i)).proxies[i]? =
      some { p with
        queue := rest
        invoked := p.invoked ++ [d]
        status := ProxyStatus.terminated } := by
    simp [sysStep, h, hiter1, List.getElem?_set_self, hlen]
  have hothers : ∀ j : Nat, j ≠ i →
      (sysStep fails st (SysAction.run i)).proxies[j]? = st.proxies[j]? := by
    intro j hji
    simp [sysStep, h, List.getElem?_set_ne, Ne.symm hji]
  refine ⟨hiter2, hstep, hothers, ?_, ?_⟩
  · intro acts q hqq
    obtain ⟨q0, hq0, hinv0, hst0, _⟩ :=
      terminatedFrozen fails acts (sysStep fails st (SysAction.run i)) i _ hstep rfl
    have : q = q0 := by rw [hqq] at hq0; exact Option.some_inj.mp hq0
    subst this
    exact ⟨hinv0, hst0⟩
  · intro acts j p0 hji hj
    have hj' : (sysStep fails st (SysAction.run i)).proxies[j]? = some p0 := by
      rw [hothers j hji]; exact hj
    exact fifoInv fails acts _ j p0 hj' |>.imp fun q hq => ⟨hq.1, hq.2.1⟩

/-- The fan-out state after `TaskObserver.init 2` has seen one
`on_push_frame` call, with observer 0 set up to raise. -/
def stC7 : SysState :=
  sysRun firstObserverFails (TaskObserver.init 2)
    [SysAction.push 0 1 10 FrameDirection.downstream 1]

/-- Proxy 0 of `stC7`: one queued event, task running, nothing invoked. -/
def pC7 : ProxyState :=
  { queue := [ev1], task := 0, status := ProxyStatus.running, invoked := [] }

/-- Continuation trace after observer 0's failure: one more push and
scheduler turns for both proxies. -/
def actsC7 : List SysAction :=
  [SysAction.push 1 2 11 FrameDirection.upstream 2,
   SysAction.run 0, SysAction.run 1, SysAction.run 1]

theorem C7_observer_failure_witness :
    (stC7.proxies[0]? = some pC7 ∧ pC7.status = ProxyStatus.running ∧
      pC7.queue = [ev1] ∧ firstObserverFails 0 ev1 = true) ∧
    (proxyIter (firstObserverFails 0) (proxyName 0) pC7).2.1 = none ∧
    (sysStep firstObserverFails stC7 (SysAction.run 0)).proxies[0]? =
      some { pC7 with
        queue := []
        invoked := pC7.invoked ++ [ev1]
        status := ProxyStatus.terminated } ∧
    (sysStep firstObserverFails stC7 (SysAction.run 0)).proxies[1]? = stC7.proxies[1]? ∧
    ({ queue := [ev2], task := 0, status := ProxyStatus.terminated,
       invoked := [ev1] : ProxyState }).invoked = pC7.invoked ++ [ev1] ∧
      ({ queue := [ev2], task := 0, status := ProxyStatus.terminated,
         invoked := [ev1] : ProxyState }).status = ProxyStatus.terminated ∧
    (∃ q, (sysRun firstObserverFails
        (sysStep firstObserverFails stC7 (SysAction.run 0)) actsC7).proxies[1]? = some q ∧
      q.invoked ++ q.queue =
        ({ queue := [ev1], task := 1, status := ProxyStatus.running,
           invoked := [] : ProxyState }).invoked ++
          ({ queue := [ev1], task := 1, status := ProxyStatus.running,
             invoked := [] : ProxyState }).queue ++ pushedEvents actsC7) := by
  have hm := C7_observer_failure firstObserverFails stC7 0 pC7 ev1 []
    (by decide) (by decide) (by decide) (by decide)
  have h4 := hm.2.2.2.1 actsC7
    { queue := [ev2], task := 0, status := ProxyStatus.terminated, invoked := [ev1] }
    (by decide)
  have h5 := hm.2.2.2.2 actsC7 1
    { queue := [ev1], task := 1, status := ProxyStatus.running, invoked := [] }
    (by decide) (by decide)
  exact ⟨⟨by decide, by decide, by decide, by decide⟩, hm.1, hm.2.1,
    hm.2.2.1 1 (by decide), h4.1, h4.2, h5⟩

/-- The two-action trace of C8's failure scenario: one event is pushed to a
one-observer fan-out whose observer always raises, then its proxy task gets
one scheduler turn and dies. -/
def actsC8 : List SysAction :=
  [SysAction.push 0 1 10 FrameDirection.downstream 1, SysAction.run 0]

/-- C8 as stated is FALSE on this code: after the proxy task's observer
raises and the wrapper absorbs the failure (the task is terminated, nothing
escaped to the scheduler), the task's handle 0 is STILL in the `_TASKS`
registry — `create_task` installs no completion callback and only
`wait_for_task` / `cancel_task` ever remove handles. -/
theorem C8_counterexample :
    (sysRun allFail (TaskObserver.init 1) actsC8).proxies[0]? =
      some { queue := [], task := 0, status := ProxyStatus.terminated, invoked := [ev1] } ∧
    (proxyIter (allFail 0) (proxyName 0)
      { queue := [ev1], task := 0, status := ProxyStatus.running, invoked := [] }).2.1 = none ∧
    (0 : Nat) ∈ (sysRun allFail (TaskObserver.init 1) actsC8).registry := by
  exact ⟨by decide, by decide, by decide⟩

/-- C8 amended: after a proxy task's observer raises and the wrapper absorbs
the failure, the registry is unchanged — the dead task's handle REMAINS
registered (if it was registered before, it still is); the handle leaves
the registry only when `wait_for_task` or `cancel_task` is later called on
it, for instance by `stop()`. -/
theorem C8_amended_failure_keeps_handle (fails : Nat → ObserverData → Bool)
    (st : SysState) (i : Nat) (p : ProxyState) (d : ObserverData)
    (rest : List ObserverData)
    (h : st.proxies[i]? = some p) (hs : p.status = ProxyStatus.running)
    (hq : p.queue = d :: rest) (hf : fails i d = true) :
    (sysStep fails st (SysAction.run i)).registry = st.registry ∧
    (p.task ∈ st.registry → p.task ∈ (sysStep fails st (SysAction.run i)).registry) ∧
    (∀ (outs : Nat → AwaitOutcome) (q : ProxyState),
      (sysStep fails st (SysAction.run i)).proxies[i]? = some q →
      q.task ∉ ((stop outs (sysStep fails st (SysAction.run i))).1).registry) := by
  have hreg : (sysStep fails st (SysAction.run i)).registry = st.registry := by
    simp [sysStep, h]
  refine ⟨hreg, fun hmem => by rw [hreg]; exact hmem, fun outs q hqq => ?_⟩
  have hin : i ∈ List.range (sysStep fails st (SysAction.run i)).proxies.length :=
    List.mem_range.mpr (lt_of_getElem?_some hqq)
  exact stopFrom_removes outs _ _ i q hin hqq

/-- The fan-out state of C8's scenario just before the failing turn. -/
def stC8mid : SysState :=
  sysRun allFail (TaskObserver.init 1)
    [SysAction.push 0 1 10 FrameDirection.downstream 1]

/-- Proxy 0 of `stC8mid`. -/
def pC8mid : ProxyState :=
  { queue := [ev1], task := 0, status := ProxyStatus.running, invoked := [] }

theorem C8_amended_failure_keeps_handle_witness :
    (stC8mid.proxies[0]? = some pC8mid ∧ pC8mid.status = ProxyStatus.running ∧
      pC8mid.queue = [ev1] ∧ allFail 0 ev1 = true ∧ pC8mid.task ∈ stC8mid.registry) ∧
    (sysStep allFail stC8mid (SysAction.run 0)).registry = stC8mid.registry ∧
    pC8mid.task ∈ (sysStep allFail stC8mid (SysAction.run 0)).registry ∧
    ({ queue := [], task := 0, status := ProxyStatus.terminated,
       invoked := [ev1] : ProxyState }).task ∉
      ((stop outsC (sysStep allFail stC8mid (SysAction.run 0))).1).registry := by
  have hm := C8_amended_failure_keeps_handle allFail stC8mid 0 pC8mid ev1 []
    (by decide) (by decide) (by decide) (by decide)
  exact ⟨⟨by decide, by decide, by decide, by decide, by decide⟩, hm.1,
    hm.2.1 (by decide),
    hm.2.2 outsC
      { queue := [], task := 0, status := ProxyStatus.terminated, invoked := [ev1] }
      (by decide)⟩

end Pipecat
